import Mathlib

/-!
Verification development for the Curriculens document assistant (`app.py`).

The Python source is shallowly embedded: strings are Lean `String`s (lists of
characters), Python dicts keyed by `int` are insertion-ordered association
lists, and the handful of regular expressions the program uses are translated
pattern by pattern into deterministic scanners that follow the semantics of
CPython `re` (leftmost, non-overlapping `findall`; greedy and lazy
quantifiers with the backtracking each concrete pattern can actually
perform).  Character classes (`\s`, `\d`, `\w`) are modelled at the ASCII
level.  Fallible operations (dict indexing, Latin-1 encoding) return
`Except`.
-/

deriving instance DecidableEq for Except

namespace Curriculens

/-! ### Python character classes (ASCII model) -/

/-- Python regex `\s` (ASCII part): space, tab, newline, carriage return,
vertical tab, form feed.  `str.strip` uses the same set. -/
def isPySpace (c : Char) : Bool :=
  c == ' ' || c == '\t' || c == '\n' || c == '\r' || c == '\x0b' || c == '\x0c'

/-- Python regex `\d` (ASCII part). -/
def isPyDigit (c : Char) : Bool :=
  '0' ≤ c && c ≤ '9'

/-- Python regex `\w` (ASCII part): letters, digits, underscore. -/
def isWordChar (c : Char) : Bool :=
  ('a' ≤ c && c ≤ 'z') || ('A' ≤ c && c ≤ 'Z') || isPyDigit c || c == '_'

/-- ASCII lower-casing, as `str.lower` / `re.IGNORECASE` act on ASCII. -/
def pyLowerChar (c : Char) : Char :=
  if 'A' ≤ c && c ≤ 'Z' then Char.ofNat (c.toNat + 32) else c

/-- `str.strip()`: drop leading and trailing whitespace. -/
def pyStrip (l : List Char) : List Char :=
  ((l.dropWhile isPySpace).reverse.dropWhile isPySpace).reverse

/-- Python `int()` on a non-empty string of ASCII digits. -/
def digitsToNat (l : List Char) : Nat :=
  l.foldl (fun n c => 10 * n + (c.toNat - 48)) 0

/-- Python slicing `s[:n]`. -/
def pyTake (n : Nat) (s : String) : String :=
  String.mk (s.data.take n)

/-! ### Python dict with `int` keys (insertion-ordered association list)

`dictSet` is `d[k] = v`: it replaces the value in place when the key is
present and appends otherwise, exactly like a Python dict. -/

def dictSet : List (Nat × String) → Nat → String → List (Nat × String)
  | [], k, v => [(k, v)]
  | (k', v') :: rest, k, v =>
      if k' = k then (k, v) :: rest else (k', v') :: dictSet rest k v

def dictGet : List (Nat × String) → Nat → Option String
  | [], _ => none
  | (k', v') :: rest, k => if k' = k then some v' else dictGet rest k

/-- Python `k in d`. -/
def dictMem (m : List (Nat × String)) (k : Nat) : Bool :=
  (dictGet m k).isSome

/-! ### Case-insensitive literal matching -/

/-- If `pat` is a case-insensitive prefix of `l`, return the rest of `l`. -/
def dropCI : List Char → List Char → Option (List Char)
  | [], l => some l
  | _ :: _, [] => none
  | p :: ps, c :: cs =>
      if pyLowerChar p == pyLowerChar c then dropCI ps cs else none

/-- Does `pat` occur in `l` as a case-insensitive substring? -/
def occursCI (pat : List Char) : List Char → Bool
  | [] => (dropCI pat ([] : List Char)).isSome
  | c :: cs => (dropCI pat (c :: cs)).isSome || occursCI pat cs

/-- Leftmost case-insensitive occurrence of `pat`: the suffix of `l`
following the matched literal, or `none`. -/
def findHeading (pat : List Char) : List Char → Option (List Char)
  | [] => dropCI pat ([] : List Char)
  | c :: cs =>
      match dropCI pat (c :: cs) with
      | some rest => some rest
      | none => findHeading pat cs

/-! ### The chapter heading patterns (`CHAPTER_PATTERNS` in `app.py`)

Patterns, all applied with `re.IGNORECASE`:
1. `(?:Chapter\s+(\d+)[\s:\-]+)([^\n]+)`
2. `(?:CHAPTER\s+(\d+)[\s:\-]+)([^\n]+)`  — identical to 1 under IGNORECASE
3. `(?:CHAPTER\s+(\d+))`
4. `(?:Section\s+(\d+)[\s:\-]+)([^\n]+)`
-/

def chapterKw : List Char := "chapter".data
def sectionKw : List Char := "section".data

/-- The character class `[\s:\-]`. -/
def sepClass (c : Char) : Bool :=
  isPySpace c || c == ':' || c == '-'

/-- Backtracking step for `[\s:\-]+([^\n]+)` when the maximal separator run
is followed by end of input or a newline: the class gives back its last
characters one at a time until `[^\n]+` can start, i.e. the title becomes
the last non-newline character of the run after its first character (the
class must keep at least one).  `srest` is the separator run minus its first
character, `r1` the input after the whole run; returns `(title, rest)`. -/
def backtrackSep (srest r1 : List Char) : Option (List Char × List Char) :=
  let revs := srest.reverse
  let nls := revs.takeWhile (fun c => c == '\n')
  match revs.drop nls.length with
  | [] => none
  | c :: _ => some ([c], nls ++ r1)

/-- Match `[\s:\-]+([^\n]+)` at the front of `l` with the greedy semantics
of CPython `re`; returns the captured title and the rest after the match. -/
def sepTitleMatch (l : List Char) : Option (List Char × List Char) :=
  let sep := l.takeWhile sepClass
  match sep with
  | [] => none
  | s0 :: srest =>
      let r1 := l.drop (s0 :: srest).length
      match r1 with
      | c :: _ =>
          if c ≠ '\n' then
            let title := r1.takeWhile (fun d => d ≠ '\n')
            some (title, r1.drop title.length)
          else backtrackSep srest r1
      | [] => backtrackSep srest r1

/-- Try the titled pattern `kw\s+(\d+)[\s:\-]+([^\n]+)` (case-insensitive)
at the current position; returns (digits, title, rest after match). -/
def tryMatchTitled (kw l : List Char) : Option (List Char × List Char × List Char) :=
  match dropCI kw l with
  | none => none
  | some r0 =>
      let sp := r0.takeWhile isPySpace
      match sp with
      | [] => none
      | _ :: _ =>
          let r1 := r0.drop sp.length
          let ds := r1.takeWhile isPyDigit
          match ds with
          | [] => none
          | _ :: _ =>
              match sepTitleMatch (r1.drop ds.length) with
              | none => none
              | some (title, rest) => some (ds, title, rest)

/-- Try the bare pattern `kw\s+(\d+)` (case-insensitive) at the current
position; returns (digits, rest after match). -/
def tryMatchBare (l : List Char) : Option (List Char × List Char) :=
  match dropCI chapterKw l with
  | none => none
  | some r0 =>
      let sp := r0.takeWhile isPySpace
      match sp with
      | [] => none
      | _ :: _ =>
          let r1 := r0.drop sp.length
          let ds := r1.takeWhile isPyDigit
          match ds with
          | [] => none
          | _ :: _ => some (ds, r1.drop ds.length)

/-- `re.findall` scan for a titled pattern: leftmost, non-overlapping.
Fuel bounds the number of scan steps; each step either advances one
position or jumps past a (non-empty) match, so `length + 1` is enough. -/
def findallTitledAux (kw : List Char) : Nat → List Char → List (List Char × List Char)
  | 0, _ => []
  | _ + 1, [] => []
  | fuel + 1, c :: cs =>
      match tryMatchTitled kw (c :: cs) with
      | some (ds, title, rest) => (ds, title) :: findallTitledAux kw fuel rest
      | none => findallTitledAux kw fuel cs

def findallTitled (kw : List Char) (l : List Char) : List (List Char × List Char) :=
  findallTitledAux kw (l.length + 1) l

/-- `re.findall` scan for the bare pattern `CHAPTER\s+(\d+)`. -/
def findallBareAux : Nat → List Char → List (List Char)
  | 0, _ => []
  | _ + 1, [] => []
  | fuel + 1, c :: cs =>
      match tryMatchBare (c :: cs) with
      | some (ds, rest) => ds :: findallBareAux fuel rest
      | none => findallBareAux fuel cs

def findallBare (l : List Char) : List (List Char) :=
  findallBareAux (l.length + 1) l

/-! ### `extract_chapters` -/

/-- Fold the matches of a titled pattern into the chapter dict:
`chapters[int(num)] = name.strip()`. -/
def applyTitled (m : List (Nat × String)) (ms : List (List Char × List Char)) :
    List (Nat × String) :=
  ms.foldl (fun m p => dictSet m (digitsToNat p.1) (String.mk (pyStrip p.2))) m

/-- Fold the matches of the bare pattern into the chapter dict:
`chapters[int(match)] = f"Chapter {match}"`. -/
def applyBare (m : List (Nat × String)) (ms : List (List Char)) :
    List (Nat × String) :=
  ms.foldl (fun m ds => dictSet m (digitsToNat ds) (String.mk ("Chapter ".data ++ ds))) m

/-- Chapter dict after the first two patterns (which coincide under
`re.IGNORECASE`, and the code runs both). -/
def chaptersP12 (text : String) : List (Nat × String) :=
  applyTitled (applyTitled [] (findallTitled chapterKw text.data))
    (findallTitled chapterKw text.data)

/-- Chapter dict after the third (bare `CHAPTER\s+(\d+)`) pattern. -/
def chaptersP123 (text : String) : List (Nat × String) :=
  applyBare (chaptersP12 text) (findallBare text.data)

/-- `extract_chapters` from `app.py`: the four patterns applied in order,
last write wins on equal chapter numbers. -/
def extract_chapters (text : String) : List (Nat × String) :=
  applyTitled (chaptersP123 text) (findallTitled sectionKw text.data)

/-! ### Chapter-scoped text selection

Both `chatbot_response` (lines 80-89) and the Generate branch of `main`
(lines 200-208) rebuild the heading `f"Chapter {n}: {title}"` and search the
extracted text with a regex `escape(heading)(.*?)(NEXT|$)` compiled with
`re.DOTALL | re.IGNORECASE`.  In the chat path `NEXT` is `Chapter\s+\d+:`;
in the Generate path the pattern is written inside an `rf"..."` raw f-string
as `Chapter\\s+\\d+:`, whose regex meaning is the literal text
`Chapter` + backslash + one or more `s` + backslash + one or more `d` + `:`.
-/

/-- The chat-path break pattern `Chapter\s+\d+:` (case-insensitive),
tested at the front of the input. -/
def nextChapterChat (l : List Char) : Bool :=
  match dropCI chapterKw l with
  | none => false
  | some r0 =>
      let sp := r0.takeWhile isPySpace
      match sp with
      | [] => false
      | _ :: _ =>
          let r1 := r0.drop sp.length
          let ds := r1.takeWhile isPyDigit
          match ds with
          | [] => false
          | _ :: _ =>
              match r1.drop ds.length with
              | ':' :: _ => true
              | _ => false

/-- The Generate-path break pattern as actually compiled from the raw
f-string `Chapter\\s+\\d+:`: the literal `Chapter` (case-insensitive), a
backslash, one or more letters `s`, a backslash, one or more letters `d`,
then `:`.  `re.IGNORECASE` also applies to the letters `s` and `d`. -/
def nextChapterGen (l : List Char) : Bool :=
  match dropCI chapterKw l with
  | none => false
  | some r0 =>
      match r0 with
      | '\\' :: r1 =>
          let ss := r1.takeWhile (fun c => pyLowerChar c == 's')
          match ss with
          | [] => false
          | _ :: _ =>
              match r1.drop ss.length with
              | '\\' :: r2 =>
                  let ds := r2.takeWhile (fun c => pyLowerChar c == 'd')
                  match ds with
                  | [] => false
                  | _ :: _ =>
                      match r2.drop ds.length with
                      | ':' :: _ => true
                      | _ => false
              | _ => false
      | _ => false

/-- The lazy group `(.*?)` before `(NEXT|$)` under `re.DOTALL`: extend the
span one character at a time, stopping as soon as the break pattern matches
or `$` matches (end of input, or just before a single trailing newline —
`re.MULTILINE` is not set). -/
def lazySpan (nextB : List Char → Bool) : List Char → List Char
  | [] => []
  | c :: cs =>
      if nextB (c :: cs) then []
      else if c == '\n' && cs.isEmpty then []
      else c :: lazySpan nextB cs

/-- The reconstructed heading `f"Chapter {selected_chapter}: {title}"`. -/
def headingFor (n : Nat) (title : String) : String :=
  "Chapter " ++ toString n ++ ": " ++ title

/-- `pattern.search` followed by `match.group(1).strip()` with fallback to
the whole text: the shared shape of both selector implementations. -/
def selectSpan (nextB : List Char → Bool) (fullText heading : String) : String :=
  match findHeading heading.data fullText.data with
  | some rest => String.mk (pyStrip (lazySpan nextB rest))
  | none => fullText

/-- Chapter-scoped context as computed by `chatbot_response` once the
selected chapter is known to be in the map (lines 81-89 of `app.py`). -/
def chapterContextChat (fullText : String) (n : Nat) (title : String) : String :=
  selectSpan nextChapterChat fullText (headingFor n title)

/-- Chapter text as computed by the Generate branch of `main`
(lines 202-208 of `app.py`), with its raw-f-string break pattern. -/
def chapterTextGen (fullText : String) (n : Nat) (title : String) : String :=
  selectSpan nextChapterGen fullText (headingFor n title)

/-! ### Keyword extraction (`extract_keywords`) -/

/-- Lower-case every character (`text.lower()`, ASCII model). -/
def pyLower (l : List Char) : List Char := l.map pyLowerChar

/-- `re.findall(r'\b\w+\b', ...)`: the maximal runs of word characters.
`cur` accumulates the current run in reverse. -/
def tokenizeAux (cur : List Char) : List Char → List String
  | [] => if cur.isEmpty then [] else [String.mk cur.reverse]
  | c :: cs =>
      if isWordChar c then tokenizeAux (c :: cur) cs
      else if cur.isEmpty then tokenizeAux [] cs
      else String.mk cur.reverse :: tokenizeAux [] cs

def tokenize (l : List Char) : List String := tokenizeAux [] l

/-- Modelled from the spec: the "fixed English stop-word set" used by
`extract_keywords` is the NLTK `stopwords.words('english')` corpus, which
is data external to this repository.  Entries containing an apostrophe
(contractions such as the negated auxiliaries) are omitted here because the
tokenizer only ever produces runs of word characters, so they can never be
looked up; every other entry of the standard list is reproduced. -/
def stop_words : List String :=
  ["i", "me", "my", "myself", "we", "our", "ours", "ourselves",
   "you", "your", "yours", "yourself", "yourselves",
   "he", "him", "his", "himself", "she", "her", "hers", "herself",
   "it", "its", "itself", "they", "them", "their", "theirs", "themselves",
   "what", "which", "who", "whom", "this", "that", "these", "those",
   "am", "is", "are", "was", "were", "be", "been", "being",
   "have", "has", "had", "having", "do", "does", "did", "doing",
   "a", "an", "the", "and", "but", "if", "or", "because", "as",
   "until", "while", "of", "at", "by", "for", "with", "about",
   "against", "between", "into", "through", "during", "before",
   "after", "above", "below", "to", "from", "up", "down", "in",
   "out", "on", "off", "over", "under", "again", "further",
   "then", "once", "here", "there", "when", "where", "why", "how",
   "all", "any", "both", "each", "few", "more", "most", "other",
   "some", "such", "no", "nor", "not", "only", "own", "same",
   "so", "than", "too", "very", "s", "t", "can", "will", "just",
   "don", "should", "now", "d", "ll", "m", "o", "re", "ve", "y",
   "ain", "aren", "couldn", "didn", "doesn", "hadn", "hasn",
   "haven", "isn", "ma", "mightn", "mustn", "needn", "shan",
   "shouldn", "wasn", "weren", "won", "wouldn"]

/-- The filtered token stream: tokens of the lower-cased text that are not
stop words and have length greater than 2. -/
def filteredTokens (text : String) : List String :=
  (tokenize (pyLower text.data)).filter (fun w => !stop_words.contains w && w.length > 2)

/-- First-seen deduplication, the key order of `collections.Counter`
(insertion order of a Python dict). -/
def firstSeenAux (seen : List String) : List String → List String
  | [] => []
  | w :: ws =>
      if seen.contains w then firstSeenAux seen ws
      else w :: firstSeenAux (w :: seen) ws

/-- `Counter(l).items()`: each distinct token, in first-seen order, with
its number of occurrences. -/
def counterItems (l : List String) : List (String × Nat) :=
  (firstSeenAux [] l).map (fun w => (w, l.count w))

/-- One step of a stable descending insertion sort on the count: the new
item goes after every item with a count greater than or equal to its own. -/
def insertByCount (x : String × Nat) : List (String × Nat) → List (String × Nat)
  | [] => [x]
  | y :: ys => if x.2 ≤ y.2 then y :: insertByCount x ys else x :: y :: ys

/-- Stable sort by descending count, equal counts keeping first-seen order:
the ordering `Counter.most_common` guarantees (`heapq.nlargest` is
documented as a stable descending sort followed by truncation). -/
def sortByCountDesc (l : List (String × Nat)) : List (String × Nat) :=
  l.foldl (fun acc x => insertByCount x acc) []

/-- `Counter(l).most_common(k)`. -/
def most_common (l : List String) (k : Nat) : List (String × Nat) :=
  (sortByCountDesc (counterItems l)).take k

/-- `extract_keywords` from `app.py`. -/
def extract_keywords (text : String) (num_keywords : Nat := 10) : List String :=
  (most_common (filteredTokens text) num_keywords).map Prod.fst

/-! ### Prompt building (`main`, lines 214-231, and `chatbot_response`) -/

inductive Task where
  | lessonPlan | mcqs | shortQuestions | summarize | extractKeywords
deriving DecidableEq

/-- The fixed template of each generator-backed task (`prompt_map` plus the
Summarize branch). -/
def taskTemplate : Task → String
  | .lessonPlan => "Create a lesson plan for the following content:"
  | .mcqs => "Generate multiple choice questions for the following content:"
  | .shortQuestions => "Generate short answer questions for the following content:"
  | .summarize => "Summarize the following content:"
  | .extractKeywords => ""

/-- The prompt handed to `TextGenerator.generate_text` by the Generate
branch; `none` for Extract Keywords, which bypasses the generator. -/
def generatorPrompt : Task → String → Option String
  | .extractKeywords, _ => none
  | .summarize, ctx => some (taskTemplate .summarize ++ "\n\n" ++ pyTake 3000 ctx)
  | .lessonPlan, ctx => some (taskTemplate .lessonPlan ++ "\n\n" ++ pyTake 3000 ctx)
  | .mcqs, ctx => some (taskTemplate .mcqs ++ "\n\n" ++ pyTake 3000 ctx)
  | .shortQuestions, ctx => some (taskTemplate .shortQuestions ++ "\n\n" ++ pyTake 3000 ctx)

def chatTemplateHead : String :=
  "You are an educational assistant. The user uploaded the following content:\n\n"

def chatTemplateMid : String := "\n\nUser question: "

def chatTemplateTail : String :=
  "\n\nPlease provide a clear, concise and helpful answer based on the above content."

/-- The chat f-string of `chatbot_response` (lines 95-101). -/
def chatPromptOf (context userInput : String) : String :=
  chatTemplateHead ++ context ++ chatTemplateMid ++ userInput ++ chatTemplateTail

/-- Lines 93-101 of `app.py`: the context is truncated to its first 3000
characters and then embedded in the chat template. -/
def chatbotPromptFromContext (context userInput : String) : String :=
  chatPromptOf (pyTake 3000 context) userInput

/-! ### `chatbot_response` context selection (lines 77-93) -/

/-- Python truthiness of `selected_chapter` (`None` and `0` are falsy). -/
def optTruthy : Option Nat → Bool
  | none => false
  | some n => n != 0

def optKey : Option Nat → Nat
  | none => 0
  | some n => n

/-- Python `chapters[selected_chapter]`: raises `KeyError` when absent. -/
def dictIndex (m : List (Nat × String)) (k : Nat) : Except String String :=
  match dictGet m k with
  | some v => Except.ok v
  | none => Except.error "KeyError"

def isOkE {ε α : Type} (e : Except ε α) : Bool :=
  match e with
  | Except.ok _ => true
  | Except.error _ => false

/-- The context chosen by `chatbot_response` before truncation: the
chapter-scoped span when `content_type == "Book"`, a chapter is selected
(truthily) and it is a key of the chapter map; otherwise the full extracted
text.  Indexing only happens after the membership test. -/
def chatbotContextE (extractedText : String) (chapters : List (Nat × String))
    (contentType : String) (selectedChapter : Option Nat) : Except String String :=
  if contentType == "Book" && optTruthy selectedChapter
      && dictMem chapters (optKey selectedChapter) then
    (dictIndex chapters (optKey selectedChapter)).map
      (fun title => chapterContextChat extractedText (optKey selectedChapter) title)
  else Except.ok extractedText

/-- The full prompt built by `chatbot_response`. -/
def chatbot_prompt (userInput extractedText : String) (chapters : List (Nat × String))
    (contentType : String) (selectedChapter : Option Nat) : Except String String :=
  (chatbotContextE extractedText chapters contentType selectedChapter).map
    (fun context => chatbotPromptFromContext context userInput)

/-! ### Document export (`export_to_pdf`, `export_to_word`) -/

/-- An in-memory binary buffer (`io.BytesIO`): byte data plus a read
position. -/
structure ByteBuf where
  byteData : List Nat
  pos : Nat
deriving DecidableEq

/-- `BytesIO(initial)` starts at position 0. -/
def mkBuf (bytes : List Nat) : ByteBuf := ⟨bytes, 0⟩

/-- `buffer.seek(0)`. -/
def seekStart (b : ByteBuf) : ByteBuf := ⟨b.byteData, 0⟩

/-- Python `text.split('\n')`; `cur` accumulates the current line in
reverse.  The empty string splits to `[""]`. -/
def splitNlAux (cur : List Char) : List Char → List String
  | [] => [String.mk cur.reverse]
  | c :: cs =>
      if c == '\n' then String.mk cur.reverse :: splitNlAux [] cs
      else splitNlAux (c :: cur) cs

def pySplitNl (s : String) : List String := splitNlAux [] s.data

/-- The FPDF document state relevant to the claims: the sequence of texts
passed to `multi_cell`. -/
structure FPDFDoc where
  cells : List String
deriving DecidableEq

def multiCell (d : FPDFDoc) (line : String) : FPDFDoc := ⟨d.cells ++ [line]⟩

/-- The document built by `export_to_pdf`: one `multi_cell` per line of
`text.split('\n')`. -/
def pdfDocOf (text : String) : FPDFDoc :=
  (pySplitNl text).foldl multiCell ⟨[]⟩

/-- Join a list of strings with newlines, as a character list. -/
def joinNl : List String → List Char
  | [] => []
  | [s] => s.data
  | s :: t :: rest => s.data ++ '\n' :: joinNl (t :: rest)

/-- Modelled from the spec: `pdf.output(dest='S')` of the external FPDF
library serializes the document to a string.  Only its character content
matters here (the claims are about Latin-1 encodability); the PDF syntax
surrounding the text is ASCII, so the output is modelled as the cell texts
joined by newlines. -/
def pdfOutputChars (d : FPDFDoc) : List Char := joinNl d.cells

/-- Python `str.encode('latin1')`: succeeds exactly when every character is
a code point below 256, otherwise raises `UnicodeEncodeError`. -/
def latin1Encode (s : List Char) : Except Unit (List Nat) :=
  if s.all (fun c => c.toNat < 256) then Except.ok (s.map Char.toNat)
  else Except.error ()

/-- `export_to_pdf` from `app.py`: build the FPDF document line by line,
serialize, encode to Latin-1 (the unhandled failure point), wrap in a
buffer and seek to 0. -/
def export_to_pdf (text : String) : Except Unit ByteBuf :=
  (latin1Encode (pdfOutputChars (pdfDocOf text))).map (fun bytes => seekStart (mkBuf bytes))

/-- The python-docx document state relevant to the claims: the sequence of
texts passed to `add_paragraph`.  `export_to_word` adds the whole text as a
single paragraph. -/
structure DocxDoc where
  paragraphs : List String
deriving DecidableEq

def addParagraph (d : DocxDoc) (t : String) : DocxDoc := ⟨d.paragraphs ++ [t]⟩

def docxDocOf (text : String) : DocxDoc := addParagraph ⟨[]⟩ text

/-- Modelled from the spec: `doc.save(buffer)` of the external python-docx
library serializes the document; it accepts arbitrary Unicode ("the Word
path has no such constraint", spec 4.5), so it is total.  The byte content
is irrelevant to every claim and abstracted as the code points of the
paragraphs joined by newlines. -/
def docxSave (d : DocxDoc) : List Nat :=
  (joinNl d.paragraphs).map Char.toNat

/-- `export_to_word` from `app.py`: one paragraph holding the whole text,
saved into a buffer seeked to 0.  No failure path. -/
def export_to_word (text : String) : Except Unit ByteBuf :=
  Except.ok (seekStart (mkBuf (docxSave (docxDocOf text))))

/-! ### Session state and user actions (`main`) -/

def MAX_CHARS : Nat := 12000

/-- Upload-time truncation (lines 168-170): text longer than `MAX_CHARS`
is cut to its first `MAX_CHARS` characters. -/
def pyTruncateUpload (t : String) : String :=
  if t.length > MAX_CHARS then pyTake MAX_CHARS t else t

/-- The session state owned by the UI controller: extracted text, chapter
map, chat history (user, bot, optional chapter) and generated-content log. -/
structure SessionState where
  extractedText : Option String
  chapters : List (Nat × String)
  chatHistory : List (String × String × Option Nat)
  allGenerated : List String
deriving DecidableEq

def initialSession : SessionState := ⟨none, [], [], []⟩

/-- One user action, as dispatched by `main`. -/
inductive UAction where
  | upload (parserOutput : String) (contentType : String)
  | generate (result : String)
  | chat (userInput botResponse : String) (chapter : Option Nat)
  | exportDoc
  | reset

/-- The effect of each action on the session state, following `main`:
upload stores the truncated text and, for a Book with a non-empty detected
chapter map, the chapters; generate and chat append to their logs; export
only reads; reset restores the initial state. -/
def stepSession (s : SessionState) : UAction → SessionState
  | .upload raw ct =>
      let t := pyTruncateUpload raw
      if ct == "Book" then
        let ch := extract_chapters t
        if ch.isEmpty then ⟨some t, s.chapters, s.chatHistory, s.allGenerated⟩
        else ⟨some t, ch, s.chatHistory, s.allGenerated⟩
      else ⟨some t, s.chapters, s.chatHistory, s.allGenerated⟩
  | .generate r => ⟨s.extractedText, s.chapters, s.chatHistory, s.allGenerated ++ [r]⟩
  | .chat u b c => ⟨s.extractedText, s.chapters, s.chatHistory ++ [(u, b, c)], s.allGenerated⟩
  | .exportDoc => s
  | .reset => initialSession

def runSession (acts : List UAction) : SessionState :=
  acts.foldl stepSession initialSession

/-- The invariant of claim C9: whatever text the session holds has at most
`MAX_CHARS` characters. -/
def sessionInv (s : SessionState) : Prop :=
  ∀ t, s.extractedText = some t → t.length ≤ MAX_CHARS

/-! ### Supporting lemmas -/

theorem findHeading_none_iff (pat l : List Char) :
    findHeading pat l = none ↔ occursCI pat l = false := by
  induction l with
  | nil =>
      show dropCI pat ([] : List Char) = none ↔ (dropCI pat ([] : List Char)).isSome = false
      cases h : dropCI pat ([] : List Char) <;> simp [h]
  | cons c cs ih =>
      cases h : dropCI pat (c :: cs) <;> simp [findHeading, occursCI, h, ih]

theorem length_pyTake (n : Nat) (s : String) :
    (pyTake n s).length = min n s.length := by
  show (s.data.take n).length = min n s.data.length
  exact List.length_take n s.data

theorem pyTake_of_le (n : Nat) (s : String) (h : s.length ≤ n) : pyTake n s = s := by
  cases s with
  | mk data =>
      simp only [pyTake]
      rw [List.take_of_length_le h]

theorem mem_insertByCount (x z : String × Nat) (l : List (String × Nat)) :
    z ∈ insertByCount x l ↔ z = x ∨ z ∈ l := by
  induction l with
  | nil => simp [insertByCount]
  | cons y ys ih =>
      by_cases h : x.2 ≤ y.2
      · simp only [insertByCount, if_pos h, List.mem_cons, ih]
        tauto
      · simp only [insertByCount, if_neg h, List.mem_cons]

theorem pairwise_insertByCount (x : String × Nat) (l : List (String × Nat))
    (h : l.Pairwise (fun a b => b.2 ≤ a.2)) :
    (insertByCount x l).Pairwise (fun a b => b.2 ≤ a.2) := by
  induction l with
  | nil => simp [insertByCount]
  | cons y ys ih =>
      rcases List.pairwise_cons.mp h with ⟨hy, hys⟩
      by_cases hxy : x.2 ≤ y.2
      · simp only [insertByCount, if_pos hxy]
        refine List.pairwise_cons.mpr ⟨?_, ih hys⟩
        intro z hz
        rcases (mem_insertByCount x z ys).mp hz with rfl | hz'
        · exact hxy
        · exact hy z hz'
      · simp only [insertByCount, if_neg hxy]
        refine List.pairwise_cons.mpr ⟨?_, h⟩
        intro z hz
        rcases List.mem_cons.mp hz with rfl | hz'
        · exact Nat.le_of_lt (Nat.lt_of_not_le hxy)
        · exact Nat.le_trans (hy z hz') (Nat.le_of_lt (Nat.lt_of_not_le hxy))

theorem pairwise_foldl_insert (l : List (String × Nat)) :
    ∀ acc, acc.Pairwise (fun a b => b.2 ≤ a.2) →
      (l.foldl (fun a x => insertByCount x a) acc).Pairwise (fun a b => b.2 ≤ a.2) := by
  induction l with
  | nil => intro acc hacc; simpa using hacc
  | cons x xs ih =>
      intro acc hacc
      rw [List.foldl_cons]
      exact ih _ (pairwise_insertByCount x acc hacc)

theorem pairwise_sortByCountDesc (l : List (String × Nat)) :
    (sortByCountDesc l).Pairwise (fun a b => b.2 ≤ a.2) :=
  pairwise_foldl_insert l [] (by simp)

theorem filter_insertByCount_ne (c : Nat) (x : String × Nat) (l : List (String × Nat))
    (hx : x.2 ≠ c) :
    (insertByCount x l).filter (fun p => p.2 == c) = l.filter (fun p => p.2 == c) := by
  induction l with
  | nil => simp [insertByCount, List.filter_cons, hx]
  | cons y ys ih =>
      by_cases hxy : x.2 ≤ y.2
      · simp only [insertByCount, if_pos hxy, List.filter_cons, ih]
      · simp only [insertByCount, if_neg hxy, List.filter_cons]
        simp [hx]

theorem filter_insertByCount_eq (c : Nat) (x : String × Nat) (l : List (String × Nat))
    (hl : l.Pairwise (fun a b => b.2 ≤ a.2)) (hx : x.2 = c) :
    (insertByCount x l).filter (fun p => p.2 == c)
      = l.filter (fun p => p.2 == c) ++ [x] := by
  induction l with
  | nil => simp [insertByCount, List.filter_cons, hx]
  | cons y ys ih =>
      rcases List.pairwise_cons.mp hl with ⟨hy, hys⟩
      by_cases hxy : x.2 ≤ y.2
      · simp only [insertByCount, if_pos hxy, List.filter_cons, ih hys]
        by_cases hyc : y.2 = c <;> simp [hyc]
      · have hlt : y.2 < x.2 := Nat.lt_of_not_le hxy
        have hnil : (y :: ys).filter (fun p => p.2 == c) = [] := by
          refine List.filter_eq_nil_iff.mpr ?_
          intro p hp
          rcases List.mem_cons.mp hp with rfl | hp'
          · simp; omega
          · have := hy p hp'
            simp; omega
        simp only [insertByCount, if_neg hxy, List.filter_cons, hnil]
        simp [hx]

theorem filter_foldl_insert (c : Nat) (l : List (String × Nat)) :
    ∀ acc, acc.Pairwise (fun a b => b.2 ≤ a.2) →
      (l.foldl (fun a x => insertByCount x a) acc).filter (fun p => p.2 == c)
        = acc.filter (fun p => p.2 == c) ++ l.filter (fun p => p.2 == c) := by
  induction l with
  | nil => intro acc hacc; simp
  | cons x xs ih =>
      intro acc hacc
      rw [List.foldl_cons, ih _ (pairwise_insertByCount x acc hacc), List.filter_cons]
      by_cases hx : x.2 = c
      · rw [filter_insertByCount_eq c x acc hacc hx]
        simp [hx, List.append_assoc]
      · rw [filter_insertByCount_ne c x acc hx]
        simp [hx]

theorem filter_sortByCountDesc (c : Nat) (l : List (String × Nat)) :
    (sortByCountDesc l).filter (fun p => p.2 == c) = l.filter (fun p => p.2 == c) := by
  have h := filter_foldl_insert c l [] (by simp)
  simpa [sortByCountDesc] using h

theorem counterItems_fst (l : List String) :
    (counterItems l).map Prod.fst = firstSeenAux [] l := by
  have h : (Prod.fst ∘ fun w : String => (w, l.count w)) = id := rfl
  rw [counterItems, List.map_map, h, List.map_id]

theorem counterItems_count (l : List String) :
    ∀ p ∈ counterItems l, p.2 = l.count p.1 := by
  intro p hp
  rcases List.mem_map.mp hp with ⟨w, _, rfl⟩
  rfl

theorem cells_foldl_multiCell (ls : List String) :
    ∀ acc : List String, ((ls.foldl multiCell ⟨acc⟩).cells) = acc ++ ls := by
  induction ls with
  | nil => intro acc; simp
  | cons x xs ih =>
      intro acc
      rw [List.foldl_cons]
      show ((xs.foldl multiCell ⟨acc ++ [x]⟩).cells) = acc ++ x :: xs
      rw [ih (acc ++ [x])]
      simp

theorem pdfDocOf_cells (text : String) : (pdfDocOf text).cells = pySplitNl text := by
  have h := cells_foldl_multiCell (pySplitNl text) []
  simpa [pdfDocOf] using h

theorem splitNlAux_ne_nil (l : List Char) : ∀ cur, splitNlAux cur l ≠ [] := by
  induction l with
  | nil => intro cur; simp [splitNlAux]
  | cons c cs ih =>
      intro cur
      by_cases h : c == '\n' <;> simp [splitNlAux, h, ih]

theorem joinNl_cons (s : String) (rest : List String) (h : rest ≠ []) :
    joinNl (s :: rest) = s.data ++ '\n' :: joinNl rest := by
  cases rest with
  | nil => exact absurd rfl h
  | cons t ts => rfl

theorem joinNl_splitNlAux (l : List Char) :
    ∀ cur : List Char, joinNl (splitNlAux cur l) = cur.reverse ++ l := by
  induction l with
  | nil => intro cur; simp [splitNlAux, joinNl]
  | cons c cs ih =>
      intro cur
      by_cases h : c = '\n'
      · have hb : (c == '\n') = true := by simp [h]
        simp only [splitNlAux, hb, if_true]
        rw [joinNl_cons _ _ (splitNlAux_ne_nil cs [])]
        show cur.reverse ++ '\n' :: joinNl (splitNlAux [] cs) = cur.reverse ++ c :: cs
        rw [ih []]
        simp [h]
      · have hb : (c == '\n') = false := by simp [h]
        simp only [splitNlAux, hb, Bool.false_eq_true, if_false]
        rw [ih (c :: cur)]
        simp

theorem pdfOutputChars_pdfDocOf (text : String) :
    pdfOutputChars (pdfDocOf text) = text.data := by
  have h := joinNl_splitNlAux text.data []
  simpa [pdfOutputChars, pdfDocOf_cells, pySplitNl] using h

theorem length_pyTruncateUpload (raw : String) :
    (pyTruncateUpload raw).length ≤ MAX_CHARS := by
  unfold pyTruncateUpload
  by_cases h : raw.length > MAX_CHARS
  · rw [if_pos h, length_pyTake]
    omega
  · rw [if_neg h]
    omega

theorem stepSession_upload_extractedText (s : SessionState) (raw ct : String) :
    (stepSession s (UAction.upload raw ct)).extractedText = some (pyTruncateUpload raw) := by
  simp only [stepSession]
  split
  · split <;> rfl
  · rfl

theorem stepSession_inv (s : SessionState) (a : UAction) (h : sessionInv s) :
    sessionInv (stepSession s a) := by
  cases a with
  | upload raw ct =>
      intro t ht
      rw [stepSession_upload_extractedText] at ht
      cases ht
      exact length_pyTruncateUpload raw
  | generate r => intro t ht; exact h t ht
  | chat u b c => intro t ht; exact h t ht
  | exportDoc => exact h
  | reset => intro t ht; simp [stepSession, initialSession] at ht

theorem foldl_stepSession_inv (acts : List UAction) :
    ∀ s, sessionInv s → sessionInv (acts.foldl stepSession s) := by
  induction acts with
  | nil => intro s hs; simpa using hs
  | cons a as ih =>
      intro s hs
      rw [List.foldl_cons]
      exact ih _ (stepSession_inv s a hs)

/-! ### The claims -/

/-- Claim C1, counterexample.  The claim says that on any text containing
the lines "Chapter 3: Intro" and "Chapter 4: Next" the detector records the
titles "Intro" and "Next" for chapters 3 and 4.  On exactly that text the
code records "Chapter 3" and "Chapter 4" instead: the bare
`CHAPTER\s+(\d+)` pattern also matches case-insensitively and runs after
the titled patterns, overwriting their titles. -/
theorem c1_counterexample :
    dictGet (extract_chapters "Chapter 3: Intro\nChapter 4: Next") 3 ≠ some "Intro"
    ∧ dictGet (extract_chapters "Chapter 3: Intro\nChapter 4: Next") 4 ≠ some "Next"
    ∧ dictGet (extract_chapters "Chapter 3: Intro\nChapter 4: Next") 3 = some "Chapter 3"
    ∧ dictGet (extract_chapters "Chapter 3: Intro\nChapter 4: Next") 4 = some "Chapter 4" := by
  decide

/-- Claim C1, amended.  On the text "Chapter 3: Intro\nChapter 4: Next" the
titled patterns first record 3 maps to "Intro" and 4 maps to "Next", but the
bare CHAPTER pattern (applied afterwards, also case-insensitively) rebinds
both numbers to the default titles, so `extract_chapters` returns the map
with 3 mapped to "Chapter 3" and 4 mapped to "Chapter 4". -/
theorem c1_amended :
    chaptersP12 "Chapter 3: Intro\nChapter 4: Next" = [(3, "Intro"), (4, "Next")]
    ∧ extract_chapters "Chapter 3: Intro\nChapter 4: Next"
        = [(3, "Chapter 3"), (4, "Chapter 4")] := by
  decide

/-- Claim C2 (code bug).  Evaluation of both selector implementations at
the failing input: on "Chapter 1: A\nfoo\nChapter 2: B\nbar" with chapter 1
and title "A" (the map being (1, "A"), (2, "B")), the chat path returns
"foo" as the claim states, but the Generate path returns
"foo\nChapter 2: B\nbar": its break regex is written inside a raw f-string
as `Chapter\\s+\\d+:`, which matches literal backslashes and never occurs,
so the lazy group runs to the end of the text. -/
theorem c2_divergence_eval :
    dictGet [(1, "A"), (2, "B")] 1 = some "A"
    ∧ chapterContextChat "Chapter 1: A\nfoo\nChapter 2: B\nbar" 1 "A" = "foo"
    ∧ chapterTextGen "Chapter 1: A\nfoo\nChapter 2: B\nbar" 1 "A"
        = "foo\nChapter 2: B\nbar"
    ∧ ("foo\nChapter 2: B\nbar" : String) ≠ "foo" := by
  decide

/-- Claim C3.  If the reconstructed heading "Chapter n: title" does not
occur case-insensitively in the full text, both selector implementations
(the chat path of `chatbot_response` and the Generate path of `main`)
return the entire full text unchanged. -/
theorem c3_fallback (fullText : String) (n : Nat) (chapters : List (Nat × String))
    (title : String) (_hmem : dictGet chapters n = some title)
    (habs : occursCI (headingFor n title).data fullText.data = false) :
    chapterContextChat fullText n title = fullText
    ∧ chapterTextGen fullText n title = fullText := by
  have hnone : findHeading (headingFor n title).data fullText.data = none :=
    (findHeading_none_iff _ _).mpr habs
  constructor <;>
    simp only [chapterContextChat, chapterTextGen, selectSpan, hnone]

/-- Witness for C3 at a concrete input. -/
theorem c3_fallback_witness :
    chapterContextChat "hello world" 1 "X" = "hello world"
    ∧ chapterTextGen "hello world" 1 "X" = "hello world" :=
  c3_fallback "hello world" 1 [(1, "X")] "X" (by decide) (by decide)

/-- Claim C4.  Every generator-backed task embeds exactly the first 3000
characters of its context after its fixed template; the chat prompt embeds
the truncated context inside the fixed chat template; the truncated context
has length `min 3000 (length context)` (so never more than 3000, and the
whole context when it is shorter). -/
theorem c4_truncation (t : Task) (ctx userInput : String) :
    (∀ p, generatorPrompt t ctx = some p
        → p = taskTemplate t ++ "\n\n" ++ pyTake 3000 ctx)
    ∧ chatbotPromptFromContext ctx userInput
        = chatTemplateHead ++ pyTake 3000 ctx ++ chatTemplateMid ++ userInput
            ++ chatTemplateTail
    ∧ (pyTake 3000 ctx).length = min 3000 ctx.length
    ∧ (ctx.length ≤ 3000 → pyTake 3000 ctx = ctx) := by
  refine ⟨?_, rfl, length_pyTake 3000 ctx, fun h => pyTake_of_le 3000 ctx h⟩
  intro p hp
  cases t <;> simp [generatorPrompt] at hp <;> exact hp.symm

/-- Witness for C4 at a concrete input. -/
theorem c4_truncation_witness :
    taskTemplate Task.summarize ++ "\n\n" ++ pyTake 3000 "hi"
      = taskTemplate Task.summarize ++ "\n\n" ++ pyTake 3000 "hi"
    ∧ pyTake 3000 "hi" = "hi" :=
  ⟨(c4_truncation Task.summarize "hi" "q").1 _ rfl,
   (c4_truncation Task.summarize "hi" "q").2.2.2 (by decide)⟩

/-- Claim C5.  `extract_keywords` lower-cases, tokenizes into maximal word
character runs, filters out stop words and tokens of length at most 2,
counts the remaining tokens in first-seen order, sorts stably by descending
count and returns the first k token names.  The conjuncts: the definition
chain; the sorted list is descending in the count; filtering the sorted
list at any fixed count preserves the first-seen order (stability of the
tie-break); the counter is keyed in first-seen order and counts
occurrences; at most k results; and the concrete example evaluates to
["cat", "sat"]. -/
theorem c5_keywords (text : String) (k : Nat) :
    extract_keywords text k
        = ((sortByCountDesc (counterItems (filteredTokens text))).take k).map Prod.fst
    ∧ (sortByCountDesc (counterItems (filteredTokens text))).Pairwise
        (fun a b => b.2 ≤ a.2)
    ∧ (∀ c : Nat,
        (sortByCountDesc (counterItems (filteredTokens text))).filter (fun p => p.2 == c)
          = (counterItems (filteredTokens text)).filter (fun p => p.2 == c))
    ∧ (counterItems (filteredTokens text)).map Prod.fst
        = firstSeenAux [] (filteredTokens text)
    ∧ (∀ p ∈ counterItems (filteredTokens text), p.2 = (filteredTokens text).count p.1)
    ∧ (extract_keywords text k).length ≤ k
    ∧ extract_keywords "the cat sat on the mat the cat ran" 2 = ["cat", "sat"] := by
  refine ⟨rfl, pairwise_sortByCountDesc _, fun c => filter_sortByCountDesc c _,
    counterItems_fst _, counterItems_count _, ?_, by decide⟩
  show ((most_common (filteredTokens text) k).map Prod.fst).length ≤ k
  rw [List.length_map, most_common, List.length_take]
  exact Nat.min_le_left _ _

/-- Witness for C5: the concrete example, and the counter entry of "cat"
in it, obtained from the theorem itself. -/
theorem c5_keywords_witness :
    extract_keywords "the cat sat on the mat the cat ran" 2 = ["cat", "sat"]
    ∧ (("cat", 2) : String × Nat).2
        = (filteredTokens "the cat sat on the mat the cat ran").count "cat" :=
  ⟨(c5_keywords "the cat sat on the mat the cat ran" 2).2.2.2.2.2.2,
   (c5_keywords "the cat sat on the mat the cat ran" 2).2.2.2.2.1 ("cat", 2) (by decide)⟩

/-- Claim C6, counterexample.  The claim says both exports split the text
on newlines into one paragraph or cell per line.  `export_to_word` does
not: on "a\nb" it produces the single paragraph "a\nb", not the two lines
the newline split gives. -/
theorem c6_counterexample :
    (docxDocOf "a\nb").paragraphs = ["a\nb"]
    ∧ pySplitNl "a\nb" = ["a", "b"]
    ∧ (docxDocOf "a\nb").paragraphs ≠ pySplitNl "a\nb" := by
  decide

/-- Claim C6, amended.  `export_to_pdf` splits the text on newlines into
one `multi_cell` per line; `export_to_word` adds the entire text as one
single paragraph; both return an in-memory buffer whose position is 0. -/
theorem c6_amended (text : String) :
    (pdfDocOf text).cells = pySplitNl text
    ∧ (docxDocOf text).paragraphs = [text]
    ∧ (∀ b, export_to_pdf text = Except.ok b → b.pos = 0)
    ∧ (∀ b, export_to_word text = Except.ok b → b.pos = 0) := by
  refine ⟨pdfDocOf_cells text, rfl, ?_, ?_⟩
  · intro b hb
    unfold export_to_pdf at hb
    cases henc : latin1Encode (pdfOutputChars (pdfDocOf text)) with
    | ok bytes =>
        rw [henc] at hb
        simp only [Except.map] at hb
        cases hb
        rfl
    | error e =>
        rw [henc] at hb
        simp [Except.map] at hb
  · intro b hb
    unfold export_to_word at hb
    cases hb
    rfl

/-- Witness for C6 (amended) at a concrete input. -/
theorem c6_amended_witness :
    (pdfDocOf "x").cells = pySplitNl "x"
    ∧ (ByteBuf.mk [120] 0).pos = 0 :=
  ⟨(c6_amended "x").1, (c6_amended "x").2.2.1 (ByteBuf.mk [120] 0) (by decide)⟩

/-- Claim C7.  `export_to_pdf` fails with an encoding error exactly when
the text contains a character outside the Latin-1 range (code point at
least 256); `export_to_word` always succeeds. -/
theorem c7_encoding (text : String) :
    (export_to_pdf text = Except.error () ↔ ∃ c ∈ text.data, 256 ≤ c.toNat)
    ∧ (isOkE (export_to_pdf text) = true ↔ ∀ c ∈ text.data, c.toNat < 256)
    ∧ isOkE (export_to_word text) = true := by
  have hout : pdfOutputChars (pdfDocOf text) = text.data := pdfOutputChars_pdfDocOf text
  have hpdf : export_to_pdf text
      = (latin1Encode text.data).map (fun bytes => seekStart (mkBuf bytes)) := by
    unfold export_to_pdf
    rw [hout]
  by_cases hall : text.data.all (fun c => c.toNat < 256)
  · have hforall : ∀ c ∈ text.data, c.toNat < 256 := by
      simpa using hall
    have henc : latin1Encode text.data = Except.ok (text.data.map Char.toNat) := by
      unfold latin1Encode
      rw [if_pos hall]
    refine ⟨?_, ?_, rfl⟩
    · rw [hpdf, henc]
      simp only [Except.map]
      constructor
      · intro h
        exact Except.noConfusion h
      · rintro ⟨c, hc, h⟩
        have := hforall c hc
        omega
    · rw [hpdf, henc]
      simp only [Except.map, isOkE]
      exact ⟨fun _ => hforall, fun _ => trivial⟩
  · have hex : ∃ c ∈ text.data, 256 ≤ c.toNat := by
      simp only [List.all_eq_true, decide_eq_true_eq] at hall
      push_neg at hall
      rcases hall with ⟨c, hc, hlt⟩
      exact ⟨c, hc, by omega⟩
    have henc : latin1Encode text.data = Except.error () := by
      unfold latin1Encode
      rw [if_neg hall]
    refine ⟨?_, ?_, rfl⟩
    · rw [hpdf, henc]
      simp only [Except.map]
      exact ⟨fun _ => hex, fun _ => trivial⟩
    · rw [hpdf, henc]
      simp only [Except.map, isOkE]
      constructor
      · intro h
        cases h
      · intro hforall
        rcases hex with ⟨c, hc, h⟩
        have := hforall c hc
        omega

/-- Witness for C7: a Latin-1 text encodes, a text with the euro sign
fails. -/
theorem c7_encoding_witness :
    isOkE (export_to_pdf "x") = true
    ∧ export_to_pdf "€" = Except.error () :=
  ⟨(c7_encoding "x").2.1.mpr (by decide),
   (c7_encoding "€").1.mpr ⟨'€', by decide, by decide⟩⟩

/-- Claim C8, counterexample.  The claim says any text containing
"CHAPTER 2" with no explicit title yields 2 mapped to "Chapter 2".  The
text "CHAPTER 2\nSection 2: Foo" contains "CHAPTER 2" with no explicit
title, yet the Section pattern runs last and rebinds 2 to "Foo". -/
theorem c8_counterexample :
    occursCI "CHAPTER 2".data "CHAPTER 2\nSection 2: Foo".data = true
    ∧ dictGet (extract_chapters "CHAPTER 2\nSection 2: Foo") 2 = some "Foo"
    ∧ dictGet (extract_chapters "CHAPTER 2\nSection 2: Foo") 2 ≠ some "Chapter 2" := by
  decide

/-- Claim C8, amended.  A bare "CHAPTER 2" heading is recorded as 2 mapped
to the default title "Chapter 2" (so on the exact text "CHAPTER 2" that is
the whole result, and it still holds just before the Section pass on the
counterexample text), but a later match for the same number — here the
Section pattern — overwrites it. -/
theorem c8_amended :
    extract_chapters "CHAPTER 2" = [(2, "Chapter 2")]
    ∧ chaptersP123 "CHAPTER 2\nSection 2: Foo" = [(2, "Chapter 2")]
    ∧ extract_chapters "CHAPTER 2\nSection 2: Foo" = [(2, "Foo")] := by
  decide

/-- Claim C9.  The upload handler stores exactly the first `MAX_CHARS`
(12000) characters of the parser output when it is longer, and the session
invariant "the stored extracted text has length at most 12000" holds after
every sequence of user actions (upload, generate, chat, export, reset). -/
theorem c9_upload_truncation (acts : List UAction) :
    sessionInv (runSession acts)
    ∧ (∀ (s : SessionState) (raw ct : String), MAX_CHARS < raw.length →
        (stepSession s (UAction.upload raw ct)).extractedText
            = some (pyTake MAX_CHARS raw)
        ∧ (pyTake MAX_CHARS raw).length = MAX_CHARS) := by
  constructor
  · refine foldl_stepSession_inv acts initialSession ?_
    intro t ht
    simp [initialSession] at ht
  · intro s raw ct h
    constructor
    · rw [stepSession_upload_extractedText]
      unfold pyTruncateUpload
      rw [if_pos h]
    · rw [length_pyTake]
      omega

/-- Witness for C9: a 12001-character upload is truncated to 12000. -/
theorem c9_upload_truncation_witness :
    sessionInv (runSession [UAction.upload (String.mk (List.replicate 12001 'a')) "Syllabus"])
    ∧ (stepSession initialSession
          (UAction.upload (String.mk (List.replicate 12001 'a')) "Syllabus")).extractedText
        = some (pyTake MAX_CHARS (String.mk (List.replicate 12001 'a')))
    ∧ (pyTake MAX_CHARS (String.mk (List.replicate 12001 'a'))).length = MAX_CHARS := by
  have h : MAX_CHARS < (String.mk (List.replicate 12001 'a')).length := by
    show MAX_CHARS < (List.replicate 12001 'a').length
    rw [List.length_replicate]
    norm_num [MAX_CHARS]
  exact ⟨(c9_upload_truncation _).1,
    ((c9_upload_truncation []).2 initialSession _ "Syllabus" h).1,
    ((c9_upload_truncation []).2 initialSession _ "Syllabus" h).2⟩

/-- Claim C10.  The context selection of `chatbot_response` never fails
with a key lookup error (the map is only indexed after the membership test
succeeds), and whenever the content type is not "Book", or no chapter is
selected, or the selected chapter is not a key of the map, the prompt is
built from the full extracted text (truncated to 3000 characters inside
the template). -/
theorem c10_safety (userInput extractedText : String) (chapters : List (Nat × String))
    (contentType : String) (selectedChapter : Option Nat) :
    isOkE (chatbotContextE extractedText chapters contentType selectedChapter) = true
    ∧ ((contentType ≠ "Book" ∨ selectedChapter = none
          ∨ dictGet chapters (optKey selectedChapter) = none) →
        chatbot_prompt userInput extractedText chapters contentType selectedChapter
          = Except.ok (chatbotPromptFromContext extractedText userInput)) := by
  constructor
  · unfold chatbotContextE
    split
    · rename_i hcond
      have hmem : dictMem chapters (optKey selectedChapter) = true := by
        have h1 := Bool.and_elim_right hcond
        exact h1
      unfold dictMem at hmem
      cases hg : dictGet chapters (optKey selectedChapter) with
      | some v => simp [dictIndex, hg, Except.map, isOkE]
      | none => rw [hg] at hmem; simp at hmem
    · rfl
  · intro hcond
    have hfalse : (contentType == "Book" && optTruthy selectedChapter
        && dictMem chapters (optKey selectedChapter)) = false := by
      rcases hcond with h | h | h
      · simp [h]
      · subst h; simp [optTruthy]
      · simp [dictMem, h]
    unfold chatbot_prompt chatbotContextE
    rw [hfalse]
    simp [Except.map]

/-- Witness for C10 at a concrete input where the fallback condition
holds. -/
theorem c10_safety_witness :
    isOkE (chatbotContextE "abc" [] "Syllabus" none) = true
    ∧ chatbot_prompt "q" "abc" [] "Syllabus" none
        = Except.ok (chatbotPromptFromContext "abc" "q") :=
  ⟨(c10_safety "q" "abc" [] "Syllabus" none).1,
   (c10_safety "q" "abc" [] "Syllabus" none).2 (Or.inl (by decide))⟩

end Curriculens
